import Mathlib

/-!
Verification development for the profit-calculator tool (src/Prototype3.py).

The file shallowly embeds the two core components of the program:

* the recalculating value extractor (lines 100-143): write inputs, save,
  reload the workbook with data_only=True, read cell M25, retry up to three
  times, and fall back to a manual approximation when the read value stays
  absent or text-typed;
* the structure-preserving merger (lines 149-184): copy every sheet of the
  two input workbooks into a freshly created third workbook, cell values
  plus the six style facets.

Machine reals of the source are modelled as rationals; openpyxl workbooks
are modelled as ordered lists of named sheets holding sparse cell grids.
-/

set_option maxHeartbeats 1000000

/-- A value read from a cell of a workbook opened with data_only=True:
the engine yields a number or a string, never formula text. -/
inductive PlainValue where
  | num (q : ℚ)
  | text (s : String)
deriving DecidableEq

/-- Mirrors the Python check `isinstance(v, str)`. -/
def PlainValue.isPyStr : PlainValue → Bool
  | PlainValue.text _ => true
  | PlainValue.num _ => false

/-- Line 120 of the source: the read is valid when
`calculated_landed_cost is not None and not isinstance(calculated_landed_cost, str)`. -/
def isValidLanded : Option PlainValue → Bool
  | some v => !v.isPyStr
  | none => false

/-- Python `target_sales_per_month or 1` at line 129, for a non-negative
integer input: zero is falsy and is replaced by 1. -/
def pyOrOne (t : ℕ) : ℕ := if t = 0 then 1 else t

/-- Outcome of the extraction phase: the numeric landed cost that flows to
line 143, plus whether the fallback warning of lines 130-131 fired.  The
source returns no flag; the Boolean here records the warning side effect. -/
structure ExtractOutcome where
  value : ℚ
  warnedFallback : Bool
deriving DecidableEq

/-- Lines 127-131: if the final read is absent or text-typed, use the manual
fallback `(shipping_total + unit_cost) / (target_sales_per_month or 1)` and
warn; otherwise use the read number as is. -/
def finishLandedCost (calcV : Option PlainValue) (s u : ℚ) (t : ℕ) : ExtractOutcome :=
  match calcV with
  | some (PlainValue.num q) => { value := q, warnedFallback := false }
  | _ => { value := (s + u) / (pyOrOne t : ℚ), warnedFallback := true }

/-- The retry loop of lines 118-125.  `loads i` is the result of the i-th
call of `load_workbook(..., data_only=True)` projected to the value of cell
M25; a load either raises (`Except.error`) or yields the read value.
Arguments: value seen by the current workbook handle, index of the next
load, remaining iterations of `range(3)`, the current value of the Python
variable `calculated_landed_cost`.  Note that the final failed iteration
still reloads once more (line 124) before the loop exits. -/
def retryLoop (loads : ℕ → Except String (Option PlainValue)) :
    Option PlainValue → ℕ → ℕ → Option PlainValue → Except String (Option PlainValue)
  | _, _, 0, cur => Except.ok cur
  | wbV, i, n + 1, _ =>
    if isValidLanded wbV then Except.ok wbV
    else
      match loads i with
      | Except.error e => Except.error e
      | Except.ok wbV2 => retryLoop loads wbV2 (i + 1) n wbV

/-- The extraction phase, lines 104-131: the temporary save (line 107) and
each reload may raise, and any such failure aborts the run at once (the
surrounding `try` of line 96 reaches line 199).  `loads 0` is the initial
reload of line 113; `loads 1`, `loads 2`, ... are the in-loop reloads of
line 124. -/
def extractDerived (saveRes : Except String Unit)
    (loads : ℕ → Except String (Option PlainValue))
    (s u : ℚ) (t : ℕ) : Except String ExtractOutcome :=
  match saveRes with
  | Except.error e => Except.error e
  | Except.ok _ =>
    match loads 0 with
    | Except.error e => Except.error e
    | Except.ok wbV =>
      match retryLoop loads wbV 1 3 none with
      | Except.error e => Except.error e
      | Except.ok calcV => Except.ok (finishLandedCost calcV s u t)

/-- Lifts a script of always-successful reads to the load interface. -/
def okLoads (reads : ℕ → Option PlainValue) : ℕ → Except String (Option PlainValue) :=
  fun i => Except.ok (reads i)

/-- Python truthiness of a numeric input (zero is falsy). -/
def pyTruthyQ (x : ℚ) : Bool := if x = 0 then false else true

/-- Python truthiness of the integer target input (zero is falsy). -/
def pyTruthyN (n : ℕ) : Bool := if n = 0 then false else true

/-- Line 85: the run continues only when every one of the six numeric
fields is truthy, i.e. non-zero. -/
def inputsFilled (s u : ℚ) (t : ℕ) (sp ff sc : ℚ) : Bool :=
  pyTruthyQ s && pyTruthyQ u && pyTruthyN t && pyTruthyQ sp && pyTruthyQ ff && pyTruthyQ sc

/-- Line 43: the run continues only when the keyword string is non-empty. -/
def keywordProvided (k : String) : Bool := if k = String.mk [] then false else true

/-- The run reaches the calculation phase exactly when the keyword check of
line 43 and the all-fields check of line 85 both pass. -/
def runReachesCalc (k : String) (s u : ℚ) (t : ℕ) (sp ff sc : ℚ) : Bool :=
  keywordProvided k && inputsFilled s u t sp ff sc

def readsNone : ℕ → Option PlainValue := fun _ => none

def readsFifteen : ℕ → Option PlainValue := fun _ => some (PlainValue.num 15)

/-- One of the six style facets copied at lines 162-167.  Facet contents are
opaque to the program (openpyxl style objects); they are modelled as plain
tokens compared for equality. -/
structure Style where
  font : ℕ
  border : ℕ
  fill : ℕ
  numberFormat : String
  protection : ℕ
  alignment : ℕ
deriving DecidableEq

/-- An in-memory cell value: a plain value, or the textual formula that a
formula-mode (data_only=False) load keeps in a formula cell. -/
inductive CellValue where
  | plain (v : PlainValue)
  | formulaText (f : String)
deriving DecidableEq

/-- An in-memory cell: its value (none for an empty cell that iter_rows
still yields) and its optional style (`cell.has_style`). -/
structure Cell where
  value : Option CellValue
  style : Option Style
deriving DecidableEq

/-- A worksheet: its title and the sparse grid of cells, listed in the
order `iter_rows` traverses them, keyed by (row, column). -/
structure Sheet where
  name : String
  cells : List ((ℕ × ℕ) × Cell)
deriving DecidableEq

/-- An openpyxl workbook: the ordered list of its worksheets. -/
structure Workbook where
  sheets : List Sheet
deriving DecidableEq

/-- `ws.cell(row=r, column=c, value=v)` (line 160 / 177): sets the value of
the cell at the address, creating a fresh unstyled cell when absent. -/
def Sheet.setCellValue (s : Sheet) (addr : ℕ × ℕ) (v : Option CellValue) : Sheet :=
  if s.cells.any (fun p => p.1 = addr) then
    { s with cells := s.cells.map (fun p =>
        if p.1 = addr then (p.1, { p.2 with value := v }) else p) }
  else
    { s with cells := s.cells ++ [(addr, { value := v, style := none })] }

/-- The six style assignments of lines 162-167 (resp. 179-184): the target
cell receives each facet of the source style. -/
def Sheet.setCellStyle (s : Sheet) (addr : ℕ × ℕ) (st : Style) : Sheet :=
  { s with cells := s.cells.map (fun p =>
      if p.1 = addr then
        (p.1, { p.2 with style := some { font := st.font, border := st.border,
                                         fill := st.fill, numberFormat := st.numberFormat,
                                         protection := st.protection,
                                         alignment := st.alignment } })
      else p) }

/-- The body of the inner copy loop (lines 159-167 / 176-184): write the
source cell value into the target sheet, then, when the source cell has a
style, copy the six facets. -/
def copyCellInto (t : Sheet) (addr : ℕ × ℕ) (c : Cell) : Sheet :=
  let t1 := t.setCellValue addr c.value
  match c.style with
  | some st => t1.setCellStyle addr st
  | none => t1

/-- One iteration of the outer copy loop (lines 153-167 / 170-184): create
a sheet with the source title in the combined workbook (`create_sheet` is
modelled from the spec: the new sheet is appended with the given title,
collisions unresolved), then copy every source cell into it. -/
def buildCopiedSheet (src : Sheet) : Sheet :=
  src.cells.foldl (fun t p => copyCellInto t p.1 p.2) { name := src.name, cells := [] }

/-- The state threaded through the merge phase: the two input workbooks and
the combined output workbook under construction.  Only `out` is ever
written by the copy loops. -/
structure MergeState where
  wbA : Workbook
  wbB : Workbook
  out : Workbook
deriving DecidableEq

/-- Copies one source sheet into the combined workbook (state-passing view
of lines 153-167 / 170-184). -/
def copySheetOp (st : MergeState) (src : Sheet) : MergeState :=
  { st with out := { sheets := st.out.sheets ++ [buildCopiedSheet src] } }

/-- Lines 152-167: the loop over `wb_landed_cost.sheetnames`. -/
def copyAllSheetsA (st : MergeState) : MergeState :=
  st.wbA.sheets.foldl copySheetOp st

/-- Lines 169-184: the loop over `wb_profit_calc.sheetnames`. -/
def copyAllSheetsB (st : MergeState) : MergeState :=
  st.wbB.sheets.foldl copySheetOp st

/-- The whole merge phase, lines 149-184: start from a fresh workbook with
its default sheet removed (lines 149-150), copy every sheet of workbook A
(the landed-cost document), then every sheet of workbook B (the profit
calculator). -/
def mergeRun (a b : Workbook) : MergeState :=
  copyAllSheetsB (copyAllSheetsA { wbA := a, wbB := b, out := { sheets := [] } })

/-- Applies a mutation to the active (first) sheet of a workbook; the
program always works on `wb.active`, the default first sheet. -/
def Workbook.updateFirstSheet (wb : Workbook) (f : Sheet → Sheet) : Workbook :=
  match wb.sheets with
  | [] => { sheets := [] }
  | s :: rest => { sheets := f s :: rest }

def addrG17 : ℕ × ℕ := (17, 7)

def addrG25 : ℕ × ℕ := (25, 7)

def addrM25 : ℕ × ℕ := (25, 13)

def addrF33 : ℕ × ℕ := (33, 6)

def addrF35 : ℕ × ℕ := (35, 6)

def addrF37 : ℕ × ℕ := (37, 6)

def addrF39 : ℕ × ℕ := (39, 6)

def addrF43 : ℕ × ℕ := (43, 6)

/-- Lines 139-143: the five writes into the profit-calculator sheet —
target sales (F33), selling price (F35), fulfillment fee (F37), storage
cost (F43) and the calculated landed cost (F39). -/
def updateProfitCalc (wb : Workbook) (t : ℕ) (sp ff sc landed : ℚ) : Workbook :=
  wb.updateFirstSheet (fun s =>
    ((((s.setCellValue addrF33 (some (CellValue.plain (PlainValue.num (t : ℚ))))).setCellValue
        addrF35 (some (CellValue.plain (PlainValue.num sp)))).setCellValue
        addrF37 (some (CellValue.plain (PlainValue.num ff)))).setCellValue
        addrF43 (some (CellValue.plain (PlainValue.num sc)))).setCellValue
        addrF39 (some (CellValue.plain (PlainValue.num landed))))

/-- Lines 116-143 as one data flow: run the extraction, and on success
write the inputs and the extracted landed cost into the profit calculator;
an extraction failure aborts the run before any of the writes (the
exception reaches line 199). -/
def profitCalcAfterRun (loads : ℕ → Except String (Option PlainValue)) (wbB : Workbook)
    (s u : ℚ) (t : ℕ) (sp ff sc : ℚ) : Workbook :=
  match extractDerived (Except.ok ()) loads s u t with
  | Except.error _ => wbB
  | Except.ok o => updateProfitCalc wbB t sp ff sc o.value

/-- The content a cell has inside an .xlsx file: a stored plain value, a
formula with the cached result of its last evaluation, or nothing.
Modelled from the spec: the glossary's two load modes read this content
either as the formula text or as the cached value. -/
inductive FileContent where
  | value (v : PlainValue)
  | formula (src : String) (cached : Option PlainValue)
  | empty
deriving DecidableEq

/-- A cell as stored in a file: content plus optional style. -/
structure FileCell where
  content : FileContent
  style : Option Style
deriving DecidableEq

/-- A worksheet as stored in a file. -/
structure FileSheet where
  name : String
  cells : List ((ℕ × ℕ) × FileCell)
deriving DecidableEq

/-- A workbook as stored in a file. -/
structure FileWorkbook where
  sheets : List FileSheet
deriving DecidableEq

/-- Modelled from the spec: reading one stored cell under a load mode.
With `computed = true` (data_only=True) a formula cell shows the cached
value of the last evaluation, possibly absent; with `computed = false`
(data_only=False) it shows its formula text.  Styles are read as stored. -/
def loadCell (computed : Bool) (fc : FileCell) : Cell :=
  { value :=
      match fc.content with
      | FileContent.value v => some (CellValue.plain v)
      | FileContent.formula src cached =>
          if computed then cached.map CellValue.plain else some (CellValue.formulaText src)
      | FileContent.empty => none
  , style := fc.style }

/-- Modelled from the spec: loading one stored worksheet under a mode. -/
def loadSheet (computed : Bool) (fs : FileSheet) : Sheet :=
  { name := fs.name, cells := fs.cells.map (fun p => (p.1, loadCell computed p.2)) }

/-- Modelled from the spec: `load_workbook(path, data_only=computed)`
(lines 61-62 load with data_only=False, lines 113 and 124 with
data_only=True). -/
def loadWB (computed : Bool) (fw : FileWorkbook) : Workbook :=
  { sheets := fw.sheets.map (loadSheet computed) }

def usc : String := "_"

def xlsxExt : String := ".xlsx"

def updatedCalcSuffix : String := "_Updated_Profit_Calculator.xlsx"

/-- The three user-visible file names of the finalization phase. -/
structure FinalizeResult where
  announcedSavePath : String
  actualSavePath : String
  downloadFileName : String
deriving DecidableEq

/-- Lines 146-148 and 186-198: the combined-file path is first computed as
keyword_date_random.xlsx and announced (lines 146-148), but line 188 then
rebinds it to the fresh temporary file name, and line 189 saves there; the
download button (line 198) offers the file under
keyword_Updated_Profit_Calculator.xlsx.  `dateStr` stands for
`datetime.datetime.now().strftime(%Y%m%d)` and `rand` for
`random.randint(10, 99)`; `tmpName` is the temporary path the runtime
hands out at line 187. -/
def finalizeRun (keyword dateStr : String) (rand : ℕ) (tmpName : String) : FinalizeResult :=
  { announcedSavePath := keyword ++ usc ++ dateStr ++ usc ++ toString rand ++ xlsxExt
  , actualSavePath := tmpName
  , downloadFileName := keyword ++ updatedCalcSuffix }

def ioErrMsg : String := "io-error"

/-- A load script whose first reload succeeds with an unresolved value and
whose next reload raises an I/O error. -/
def loadsFailSecond : ℕ → Except String (Option PlainValue) :=
  fun i => if i = 0 then Except.ok none else Except.error ioErrMsg

def wKeyword : String := "WidgetX"

def wDate : String := "20261012"

def wTmpName : String := "/tmp/tmpq1w2e3.xlsx"

def nmLanded : String := "LandedCost"

def nmCalc : String := "Calc"

def fmtCurrency : String := "0.00"

def tHello : String := "hello"

def fSumSrc : String := "=G17+G25"

def fProfitSrc : String := "=F35-F39"

def styW : Style :=
  { font := 1, border := 2, fill := 3, numberFormat := fmtCurrency, protection := 4, alignment := 5 }

/-- A concrete landed-cost workbook: one sheet, one styled numeric cell and
one unstyled text cell. -/
def wbW1 : Workbook :=
  { sheets := [{ name := nmLanded
               , cells := [((25, 13), { value := some (CellValue.plain (PlainValue.num 15))
                                      , style := some styW })
                          , ((1, 2), { value := some (CellValue.plain (PlainValue.text tHello))
                                     , style := none })] }] }

/-- A concrete profit-calculator workbook: one sheet with one empty cell. -/
def wbW2 : Workbook :=
  { sheets := [{ name := nmCalc
               , cells := [((2, 3), { value := none, style := none })] }] }

/-- A concrete profit-calculator workbook with an empty sheet. -/
def wbCalcCX : Workbook :=
  { sheets := [{ name := nmCalc, cells := [] }] }

/-- A concrete landed-cost file: M25 holds a formula whose cached value is
15. -/
def fwA : FileWorkbook :=
  { sheets := [{ name := nmLanded
               , cells := [((25, 13), { content := FileContent.formula fSumSrc (some (PlainValue.num 15))
                                      , style := none })] }] }

/-- A concrete profit-calculator file: cell (1,1) holds a formula with no
cached value. -/
def fwB : FileWorkbook :=
  { sheets := [{ name := nmCalc
               , cells := [((1, 1), { content := FileContent.formula fProfitSrc none
                                    , style := none })] }] }

/-- Key lists of every sheet of a workbook are duplicate-free (a real
worksheet grid addresses each cell once). -/
def WBNodupKeys (wb : Workbook) : Prop :=
  ∀ s ∈ wb.sheets, (s.cells.map Prod.fst).Nodup

/-- Key lists of every sheet of a stored file are duplicate-free. -/
def FWNodupKeys (fw : FileWorkbook) : Prop :=
  ∀ fs ∈ fw.sheets, (fs.cells.map Prod.fst).Nodup

def defaultSheet : Sheet := { name := String.mk [], cells := [] }

def defaultFileSheet : FileSheet := { name := String.mk [], cells := [] }

theorem isValidLanded_true_num (v : Option PlainValue) (h : isValidLanded v = true) :
    ∃ q, v = some (PlainValue.num q) := by
  match v with
  | none => simp [isValidLanded] at h
  | some (PlainValue.text s) => simp [isValidLanded, PlainValue.isPyStr] at h
  | some (PlainValue.num q) => exact ⟨q, rfl⟩

theorem finishLandedCost_invalid (c : Option PlainValue) (s u : ℚ) (t : ℕ)
    (h : isValidLanded c = false) :
    finishLandedCost c s u t
      = { value := (s + u) / (pyOrOne t : ℚ), warnedFallback := true } := by
  match c with
  | none => rfl
  | some (PlainValue.text x) => rfl
  | some (PlainValue.num q) => simp [isValidLanded, PlainValue.isPyStr] at h

theorem pyOrOne_eq_max (t : ℕ) : pyOrOne t = max t 1 := by
  cases t with
  | zero => rfl
  | succ n => simp [pyOrOne]

theorem setCellValue_name (s : Sheet) (a : ℕ × ℕ) (v : Option CellValue) :
    (s.setCellValue a v).name = s.name := by
  unfold Sheet.setCellValue
  split <;> rfl

theorem setCellStyle_name (s : Sheet) (a : ℕ × ℕ) (st : Style) :
    (s.setCellStyle a st).name = s.name := rfl

theorem copyCellInto_name (t : Sheet) (a : ℕ × ℕ) (c : Cell) :
    (copyCellInto t a c).name = t.name := by
  cases h : c.style with
  | none => simp [copyCellInto, h, setCellValue_name]
  | some st => simp [copyCellInto, h, setCellValue_name, setCellStyle_name]

theorem foldl_copyCellInto_name (cells : List ((ℕ × ℕ) × Cell)) :
    ∀ t : Sheet, (cells.foldl (fun t p => copyCellInto t p.1 p.2) t).name = t.name := by
  induction cells with
  | nil => intro t; rfl
  | cons p rest ih => intro t; rw [List.foldl_cons, ih, copyCellInto_name]

theorem buildCopiedSheet_name (src : Sheet) : (buildCopiedSheet src).name = src.name := by
  unfold buildCopiedSheet
  exact foldl_copyCellInto_name src.cells _

theorem setCellValue_absent (s : Sheet) (a : ℕ × ℕ) (v : Option CellValue)
    (h : a ∉ s.cells.map Prod.fst) :
    s.setCellValue a v
      = { name := s.name, cells := s.cells ++ [(a, { value := v, style := none })] } := by
  unfold Sheet.setCellValue
  rw [if_neg]
  intro hany
  rw [List.any_eq_true] at hany
  obtain ⟨p, hp, he⟩ := hany
  rw [decide_eq_true_iff] at he
  exact h (he ▸ List.mem_map_of_mem Prod.fst hp)

theorem setCellStyle_last (n : String) (acc : List ((ℕ × ℕ) × Cell)) (a : ℕ × ℕ)
    (c : Cell) (st : Style) (h : a ∉ acc.map Prod.fst) :
    Sheet.setCellStyle { name := n, cells := acc ++ [(a, c)] } a st
      = { name := n, cells := acc ++ [(a, { value := c.value, style := some st })] } := by
  unfold Sheet.setCellStyle
  congr 1
  rw [List.map_append]
  congr 1
  · have hacc : ∀ p ∈ acc,
        (if p.1 = a then
          (p.1, { p.2 with style := some { font := st.font, border := st.border,
                                           fill := st.fill, numberFormat := st.numberFormat,
                                           protection := st.protection,
                                           alignment := st.alignment } })
         else p) = p := by
      intro p hp
      rw [if_neg]
      intro he
      exact h (he ▸ List.mem_map_of_mem Prod.fst hp)
    rw [List.map_congr_left hacc]
    simp
  · simp

theorem copyCellInto_absent (n : String) (acc : List ((ℕ × ℕ) × Cell)) (a : ℕ × ℕ)
    (c : Cell) (h : a ∉ acc.map Prod.fst) :
    copyCellInto { name := n, cells := acc } a c = { name := n, cells := acc ++ [(a, c)] } := by
  obtain ⟨cv, cs⟩ := c
  cases cs with
  | none =>
    show (Sheet.setCellValue { name := n, cells := acc } a cv) = _
    rw [setCellValue_absent _ _ _ h]
  | some st =>
    show Sheet.setCellStyle (Sheet.setCellValue { name := n, cells := acc } a cv) a st = _
    rw [setCellValue_absent _ _ _ h]
    exact setCellStyle_last n acc a { value := cv, style := none } st h

theorem buildCopiedSheet_eq_self (src : Sheet) (h : (src.cells.map Prod.fst).Nodup) :
    buildCopiedSheet src = src := by
  obtain ⟨n, cells⟩ := src
  unfold buildCopiedSheet
  suffices hgen : ∀ rest acc : List ((ℕ × ℕ) × Cell),
      ((acc.map Prod.fst) ++ (rest.map Prod.fst)).Nodup →
      rest.foldl (fun t p => copyCellInto t p.1 p.2) { name := n, cells := acc }
        = { name := n, cells := acc ++ rest } by
    have h2 := hgen cells [] (by simpa using h)
    simpa using h2
  intro rest
  induction rest with
  | nil => intro acc _; simp
  | cons p rest ih =>
    intro acc hnd
    obtain ⟨a, c⟩ := p
    rw [List.foldl_cons]
    have ha : a ∉ acc.map Prod.fst := by
      rw [List.map_cons, List.nodup_append] at hnd
      exact fun hin => hnd.2.2 hin (List.mem_cons_self a _)
    rw [copyCellInto_absent n acc a c ha]
    have hnd2 : (((acc ++ [(a, c)]).map Prod.fst) ++ rest.map Prod.fst).Nodup := by
      simpa [List.map_append, List.append_assoc] using hnd
    rw [ih (acc ++ [(a, c)]) hnd2]
    simp

theorem foldl_copySheetOp_spec (l : List Sheet) :
    ∀ st : MergeState,
      (l.foldl copySheetOp st).wbA = st.wbA ∧ (l.foldl copySheetOp st).wbB = st.wbB ∧
      (l.foldl copySheetOp st).out.sheets = st.out.sheets ++ l.map buildCopiedSheet := by
  induction l with
  | nil => intro st; exact ⟨rfl, rfl, by simp⟩
  | cons sh rest ih =>
    intro st
    rw [List.foldl_cons]
    obtain ⟨h1, h2, h3⟩ := ih (copySheetOp st sh)
    refine ⟨h1, h2, ?_⟩
    rw [h3]
    show (st.out.sheets ++ [buildCopiedSheet sh]) ++ rest.map buildCopiedSheet = _
    simp

theorem mergeRun_wb (a b : Workbook) : (mergeRun a b).wbA = a ∧ (mergeRun a b).wbB = b := by
  unfold mergeRun copyAllSheetsB copyAllSheetsA
  obtain ⟨hA1, hA2, _⟩ := foldl_copySheetOp_spec
    (MergeState.mk a b { sheets := [] }).wbA.sheets (MergeState.mk a b { sheets := [] })
  obtain ⟨hB1, hB2, _⟩ := foldl_copySheetOp_spec
    ((MergeState.mk a b { sheets := [] }).wbA.sheets.foldl copySheetOp
      (MergeState.mk a b { sheets := [] })).wbB.sheets
    ((MergeState.mk a b { sheets := [] }).wbA.sheets.foldl copySheetOp
      (MergeState.mk a b { sheets := [] }))
  exact ⟨hB1.trans hA1, hB2.trans hA2⟩

theorem mergeRun_out_raw (a b : Workbook) :
    (mergeRun a b).out.sheets
      = a.sheets.map buildCopiedSheet ++ b.sheets.map buildCopiedSheet := by
  unfold mergeRun copyAllSheetsB copyAllSheetsA
  have st0 : MergeState := MergeState.mk a b { sheets := [] }
  obtain ⟨hA1, hA2, hA3⟩ := foldl_copySheetOp_spec
    (MergeState.mk a b { sheets := [] }).wbA.sheets (MergeState.mk a b { sheets := [] })
  obtain ⟨_, _, hB3⟩ := foldl_copySheetOp_spec
    ((MergeState.mk a b { sheets := [] }).wbA.sheets.foldl copySheetOp
      (MergeState.mk a b { sheets := [] })).wbB.sheets
    ((MergeState.mk a b { sheets := [] }).wbA.sheets.foldl copySheetOp
      (MergeState.mk a b { sheets := [] }))
  rw [hB3, hA3, hA2]
  simp

theorem map_buildCopiedSheet_eq_self (l : List Sheet)
    (h : ∀ s ∈ l, (s.cells.map Prod.fst).Nodup) :
    l.map buildCopiedSheet = l := by
  have h2 : ∀ s ∈ l, buildCopiedSheet s = id s := by
    intro s hs
    exact buildCopiedSheet_eq_self s (h s hs)
  rw [List.map_congr_left h2, List.map_id]

theorem mergeRun_out_eq (a b : Workbook) (ha : WBNodupKeys a) (hb : WBNodupKeys b) :
    (mergeRun a b).out.sheets = a.sheets ++ b.sheets := by
  rw [mergeRun_out_raw, map_buildCopiedSheet_eq_self a.sheets ha,
      map_buildCopiedSheet_eq_self b.sheets hb]

theorem retryLoop_okLoads (reads : ℕ → Option PlainValue) :
    retryLoop (okLoads reads) (reads 0) 1 3 none
      = Except.ok (if isValidLanded (reads 0) = true then reads 0
                   else if isValidLanded (reads 1) = true then reads 1 else reads 2) := by
  by_cases h0 : isValidLanded (reads 0) = true
  · simp [retryLoop, h0]
  · by_cases h1 : isValidLanded (reads 1) = true
    · simp [retryLoop, okLoads, h0, h1]
    · by_cases h2 : isValidLanded (reads 2) = true
      · simp [retryLoop, okLoads, h0, h1, h2]
      · simp [retryLoop, okLoads, h0, h1, h2]

theorem extract_okLoads (reads : ℕ → Option PlainValue) (s u : ℚ) (t : ℕ) :
    extractDerived (Except.ok ()) (okLoads reads) s u t
      = Except.ok (finishLandedCost
          (if isValidLanded (reads 0) = true then reads 0
           else if isValidLanded (reads 1) = true then reads 1 else reads 2) s u t) := by
  show (match retryLoop (okLoads reads) (reads 0) 1 3 none with
        | Except.error e => Except.error e
        | Except.ok calcV => Except.ok (finishLandedCost calcV s u t)) = _
  rw [retryLoop_okLoads]

theorem extract_all_invalid (reads : ℕ → Option PlainValue) (s u : ℚ) (t : ℕ)
    (h : ∀ i, i < 3 → isValidLanded (reads i) = false) :
    extractDerived (Except.ok ()) (okLoads reads) s u t
      = Except.ok { value := (s + u) / (pyOrOne t : ℚ), warnedFallback := true } := by
  have h0 := h 0 (by omega)
  have h2 := h 2 (by omega)
  rw [extract_okLoads, if_neg (by rw [h0]; exact Bool.false_ne_true),
      if_neg (by rw [h 1 (by omega)]; exact Bool.false_ne_true),
      finishLandedCost_invalid _ s u t h2]

theorem extract_first_valid (reads : ℕ → Option PlainValue) (s u : ℚ) (t : ℕ) (q : ℚ)
    (h : reads 0 = some (PlainValue.num q)) :
    extractDerived (Except.ok ()) (okLoads reads) s u t
      = Except.ok { value := q, warnedFallback := false } := by
  rw [extract_okLoads, if_pos (by rw [h]; rfl), h]
  rfl

/-- C1: if every one of the three attempts reads a value from cell M25 that
is absent (None) or text-typed, the landed cost the run uses equals
(shipping_total + unit_cost) / max(target_sales_per_month, 1): the Python
guard `target or 1` coincides with `max target 1` on non-negative integers,
so a zero target is treated as 1 and the division is never by zero, and the
fallback warning fires. -/
theorem fallback_value_after_exhausted_attempts (reads : ℕ → Option PlainValue)
    (s u : ℚ) (t : ℕ) (h : ∀ i, i < 3 → isValidLanded (reads i) = false) :
    extractDerived (Except.ok ()) (okLoads reads) s u t
      = Except.ok { value := (s + u) / ((max t 1 : ℕ) : ℚ), warnedFallback := true } := by
  rw [extract_all_invalid reads s u t h, pyOrOne_eq_max]

theorem fallback_value_after_exhausted_attempts_witness :
    extractDerived (Except.ok ()) (okLoads readsNone) 10 5 0
      = Except.ok { value := (10 + 5) / ((max 0 1 : ℕ) : ℚ), warnedFallback := true } :=
  fallback_value_after_exhausted_attempts readsNone 10 5 0 (fun _ _ => rfl)

/-- C3: if the very first computed-mode read of cell M25 yields a value
that is present and not text-typed (hence a number), the run uses exactly
that value and the fallback warning does not fire. -/
theorem first_valid_read_used_exactly (reads : ℕ → Option PlainValue)
    (s u : ℚ) (t : ℕ) (q : ℚ) (h : reads 0 = some (PlainValue.num q)) :
    extractDerived (Except.ok ()) (okLoads reads) s u t
      = Except.ok { value := q, warnedFallback := false } :=
  extract_first_valid reads s u t q h

theorem first_valid_read_used_exactly_witness :
    extractDerived (Except.ok ()) (okLoads readsFifteen) 10 5 7
      = Except.ok { value := 15, warnedFallback := false } :=
  first_valid_read_used_exactly readsFifteen 10 5 7 15 rfl

/-- C6 counterexample: the extraction does not hand the downstream consumer
any was_fallback flag alongside the value.  Two runs — one whose first read
resolves to 15 from the engine, one that never resolves and falls back to
(10+5)/1 = 15 — differ in whether the fallback warning fired, yet the
profit-calculator document written downstream is identical, so the
downstream consumer cannot tell an engine-derived value from a fallback
one. -/
theorem no_flag_reaches_downstream_counterexample :
    extractDerived (Except.ok ()) (okLoads readsFifteen) 10 5 1
      = Except.ok { value := 15, warnedFallback := false } ∧
    extractDerived (Except.ok ()) (okLoads readsNone) 10 5 1
      = Except.ok { value := 15, warnedFallback := true } ∧
    profitCalcAfterRun (okLoads readsFifteen) wbCalcCX 10 5 1 29 3 1
      = profitCalcAfterRun (okLoads readsNone) wbCalcCX 10 5 1 29 3 1 := by
  have e1 : extractDerived (Except.ok ()) (okLoads readsFifteen) 10 5 1
      = Except.ok { value := 15, warnedFallback := false } :=
    extract_first_valid readsFifteen 10 5 1 15 rfl
  have e2 : extractDerived (Except.ok ()) (okLoads readsNone) 10 5 1
      = Except.ok { value := 15, warnedFallback := true } := by
    have h := extract_all_invalid readsNone 10 5 1 (fun _ _ => rfl)
    rw [h]
    norm_num [pyOrOne]
  refine ⟨e1, e2, ?_⟩
  rw [profitCalcAfterRun, profitCalcAfterRun, e1, e2]

/-- C6 amended: the extractor yields only the numeric landed cost to the
downstream document; fallback is signaled solely through the warning of
lines 130-131 (which fires exactly when all three attempts read an absent
or text-typed value), and the profit-calculator update is a function of
the numeric value alone — no flag accompanies it. -/
theorem fallback_signaled_by_warning_only (reads : ℕ → Option PlainValue)
    (s u : ℚ) (t : ℕ) (wbB : Workbook) (sp ff sc : ℚ) :
    ∃ o, extractDerived (Except.ok ()) (okLoads reads) s u t = Except.ok o ∧
      (o.warnedFallback = true ↔ ∀ i, i < 3 → isValidLanded (reads i) = false) ∧
      profitCalcAfterRun (okLoads reads) wbB s u t sp ff sc
        = updateProfitCalc wbB t sp ff sc o.value := by
  have hex := extract_okLoads reads s u t
  refine ⟨_, hex, ?_, ?_⟩
  · by_cases h0 : isValidLanded (reads 0) = true
    · rw [if_pos h0]
      obtain ⟨q, hq⟩ := isValidLanded_true_num _ h0
      rw [hq]
      show false = true ↔ _
      simp only [Bool.false_eq_true, false_iff]
      intro hall
      rw [hall 0 (by omega)] at h0
      exact Bool.false_ne_true h0
    · rw [if_neg h0]
      by_cases h1 : isValidLanded (reads 1) = true
      · rw [if_pos h1]
        obtain ⟨q, hq⟩ := isValidLanded_true_num _ h1
        rw [hq]
        show false = true ↔ _
        simp only [Bool.false_eq_true, false_iff]
        intro hall
        rw [hall 1 (by omega)] at h1
        exact Bool.false_ne_true h1
      · rw [if_neg h1]
        by_cases h2 : isValidLanded (reads 2) = true
        · obtain ⟨q, hq⟩ := isValidLanded_true_num _ h2
          rw [hq]
          show false = true ↔ _
          simp only [Bool.false_eq_true, false_iff]
          intro hall
          rw [hall 2 (by omega)] at h2
          exact Bool.false_ne_true h2
        · rw [finishLandedCost_invalid _ s u t (by simpa using h2)]
          show true = true ↔ _
          simp only [true_iff]
          intro i hi
          interval_cases i
          · simpa using h0
          · simpa using h1
          · simpa using h2
  · rw [profitCalcAfterRun, hex]

/-- C7 counterexample: with keyword WidgetX, shipping_total=10.0,
unit_cost=5.0, target_sales_per_month=0 (and the remaining fields filled),
the run does NOT proceed past input validation: line 85 treats the zero
target as an unfilled field and aborts before any calculation. -/
theorem zero_target_rejected_counterexample :
    runReachesCalc wKeyword 10 5 0 29 3 1 = false := by decide

/-- C7 amended: an InputSet with target_sales_per_month = 0 is rejected by
the all-fields-truthy validation of line 85, so the run aborts before the
extractor ever runs; had the extraction phase been reached with
shipping_total=10.0, unit_cost=5.0, target=0 and a derived cell that never
resolves within 3 attempts, the fallback would indeed yield
(10.0+5.0)/1 = 15.0 with the fallback warning fired. -/
theorem zero_target_validation_and_fallback :
    runReachesCalc wKeyword 10 5 0 29 3 1 = false ∧
    extractDerived (Except.ok ()) (okLoads readsNone) 10 5 0
      = Except.ok { value := 15, warnedFallback := true } := by
  constructor
  · decide
  · rw [extract_all_invalid readsNone 10 5 0 (fun _ _ => rfl)]
    norm_num [pyOrOne]

/-- C8: load and save failures of the spreadsheet engine are never retried
and abort the whole extraction immediately: a failed temporary save (line
107) propagates at once, and a reload that raises — whether the initial
reload of line 113 or any in-loop reload of line 124, reachable after k
invalid reads for any k up to 3 — propagates at once with no further
attempt and no fallback; the bounded retry applies only to reads that are
absent or text-typed. -/
theorem io_failures_abort_immediately :
    (∀ (e : String) (loads : ℕ → Except String (Option PlainValue)) (s u : ℚ) (t : ℕ),
        extractDerived (Except.error e) loads s u t = Except.error e) ∧
    (∀ (loads : ℕ → Except String (Option PlainValue)) (e : String) (s u : ℚ) (t k : ℕ),
        k ≤ 3 →
        (∀ j, j < k → ∃ r, loads j = Except.ok r ∧ isValidLanded r = false) →
        loads k = Except.error e →
        extractDerived (Except.ok ()) loads s u t = Except.error e) := by
  constructor
  · intro e loads s u t
    rfl
  · intro loads e s u t k hk hpre hke
    interval_cases k
    · simp [extractDerived, hke]
    · obtain ⟨r0, h0, v0⟩ := hpre 0 (by omega)
      simp [extractDerived, retryLoop, h0, v0, hke]
    · obtain ⟨r0, h0, v0⟩ := hpre 0 (by omega)
      obtain ⟨r1, h1, v1⟩ := hpre 1 (by omega)
      simp [extractDerived, retryLoop, h0, v0, h1, v1, hke]
    · obtain ⟨r0, h0, v0⟩ := hpre 0 (by omega)
      obtain ⟨r1, h1, v1⟩ := hpre 1 (by omega)
      obtain ⟨r2, h2, v2⟩ := hpre 2 (by omega)
      simp [extractDerived, retryLoop, h0, v0, h1, v1, h2, v2, hke]

theorem io_failures_abort_immediately_witness :
    extractDerived (Except.ok ()) loadsFailSecond 10 5 2 = Except.error ioErrMsg :=
  io_failures_abort_immediately.2 loadsFailSecond ioErrMsg 10 5 2 1 (by omega)
    (by
      intro j hj
      interval_cases j
      exact ⟨none, rfl, rfl⟩)
    rfl

/-- C9 (code bug): line 146 computes and announces the combined-file path
keyword_date_random.xlsx, but line 188 rebinds the path to the fresh
temporary file name before the save of line 189, so the document is saved
on disk under the anonymous temporary name, not under the announced one;
the download button does offer it as keyword_Updated_Profit_Calculator.xlsx. -/
theorem combined_save_path_divergence :
    (finalizeRun wKeyword wDate 42 wTmpName).announcedSavePath
      = wKeyword ++ usc ++ wDate ++ usc ++ toString 42 ++ xlsxExt ∧
    (finalizeRun wKeyword wDate 42 wTmpName).actualSavePath = wTmpName ∧
    (finalizeRun wKeyword wDate 42 wTmpName).actualSavePath
      ≠ (finalizeRun wKeyword wDate 42 wTmpName).announcedSavePath ∧
    (finalizeRun wKeyword wDate 42 wTmpName).downloadFileName = wKeyword ++ updatedCalcSuffix := by
  refine ⟨rfl, rfl, ?_, rfl⟩
  decide

/-- C2: the merge is value- and style-preserving — under the grid invariant
that each sheet addresses every cell at most once, the output sheets are
exactly the source sheets of A followed by those of B: every populated cell
appears at the identical (row, column) of the same-named output sheet with
an identical value, a styled cell keeps all six style facets exactly, and
an unstyled cell stays unstyled. -/
theorem merge_preserves_values_and_styles (a b : Workbook)
    (ha : WBNodupKeys a) (hb : WBNodupKeys b) :
    (mergeRun a b).out.sheets = a.sheets ++ b.sheets ∧
    ∀ s ∈ a.sheets ++ b.sheets, ∀ addr c, (addr, c) ∈ s.cells →
      ∃ tsh, tsh ∈ (mergeRun a b).out.sheets ∧ tsh.name = s.name ∧
        ∃ c2, (addr, c2) ∈ tsh.cells ∧ c2.value = c.value ∧
          (∀ st, c.style = some st → ∃ st2, c2.style = some st2 ∧
            st2.font = st.font ∧ st2.border = st.border ∧ st2.fill = st.fill ∧
            st2.numberFormat = st.numberFormat ∧ st2.protection = st.protection ∧
            st2.alignment = st.alignment) ∧
          (c.style = none → c2.style = none) := by
  have hout := mergeRun_out_eq a b ha hb
  refine ⟨hout, ?_⟩
  intro s hs addr c hc
  refine ⟨s, by rw [hout]; exact hs, rfl, c, hc, rfl, ?_, fun h => h⟩
  intro st hst
  exact ⟨st, hst, rfl, rfl, rfl, rfl, rfl, rfl⟩

theorem merge_preserves_values_and_styles_witness :
    (mergeRun wbW1 wbW2).out.sheets = wbW1.sheets ++ wbW2.sheets :=
  (merge_preserves_values_and_styles wbW1 wbW2
    (by unfold WBNodupKeys; decide) (by unfold WBNodupKeys; decide)).1

/-- C4: the sheet-name sequence of the merge output is the names of A in
original order followed by the names of B in original order, for every pair
of inputs — so a name shared by A and B occurs twice in the output, i.e.
collisions are not resolved and duplicates are kept as-is. -/
theorem merge_sheet_names_append (a b : Workbook) :
    (mergeRun a b).out.sheets.map Sheet.name
      = a.sheets.map Sheet.name ++ b.sheets.map Sheet.name := by
  rw [mergeRun_out_raw, List.map_append]
  congr 1
  · rw [List.map_map]
    exact List.map_congr_left (fun s _ => buildCopiedSheet_name s)
  · rw [List.map_map]
    exact List.map_congr_left (fun s _ => buildCopiedSheet_name s)

/-- C5: the merge mutates neither input: the copy loops write only into the
freshly created combined workbook, so after the merge the two input
components of the state still hold every cell value and style facet they
held before — they are the untouched input workbooks. -/
theorem merge_never_mutates_inputs (a b : Workbook) :
    (mergeRun a b).wbA = a ∧ (mergeRun a b).wbB = b :=
  mergeRun_wb a b

theorem getD_map (f : FileSheet → Sheet) (l : List FileSheet) (i : ℕ)
    (dα : FileSheet) (dβ : Sheet) (h : i < l.length) :
    (l.map f).getD i dβ = f (l.getD i dα) := by
  induction l generalizing i with
  | nil => simp at h
  | cons x xs ih =>
    cases i with
    | zero => rfl
    | succ n =>
      rw [List.map_cons, List.getD_cons_succ, List.getD_cons_succ]
      exact ih n (by simpa using h)

theorem loadCell_computed_not_formula (fc : FileCell) (f : String) :
    (loadCell true fc).value ≠ some (CellValue.formulaText f) := by
  cases hc : fc.content with
  | value v => simp [loadCell, hc]
  | formula src cached =>
    cases cached with
    | none => simp [loadCell, hc]
    | some pv => simp [loadCell, hc]
  | empty => simp [loadCell, hc]

theorem loadSheet_keys (m : Bool) (fs : FileSheet) :
    (loadSheet m fs).cells.map Prod.fst = fs.cells.map Prod.fst := by
  unfold loadSheet
  rw [List.map_map]
  exact List.map_congr_left (fun p _ => rfl)

theorem loadWB_nodup (m : Bool) (fw : FileWorkbook) (h : FWNodupKeys fw) :
    WBNodupKeys (loadWB m fw) := by
  intro s hs
  unfold loadWB at hs
  rw [List.mem_map] at hs
  obtain ⟨fs, hfs, he⟩ := hs
  rw [← he, loadSheet_keys]
  exact h fs hfs

theorem loadSheet_mem_inv (m : Bool) (fs : FileSheet) (addr : ℕ × ℕ) (c : Cell)
    (h : (addr, c) ∈ (loadSheet m fs).cells) :
    ∃ fc, (addr, fc) ∈ fs.cells ∧ c = loadCell m fc := by
  unfold loadSheet at h
  rw [List.mem_map] at h
  obtain ⟨⟨a2, fc⟩, hp, he⟩ := h
  rw [Prod.mk.injEq] at he
  obtain ⟨h1, h2⟩ := he
  subst h1
  exact ⟨fc, hp, h2.symm⟩

theorem sheet_keys_mem_iff (s : Sheet) (a : ℕ × ℕ) :
    s.cells.any (fun p => p.1 = a) = true ↔ a ∈ s.cells.map Prod.fst := by
  rw [List.any_eq_true]
  constructor
  · rintro ⟨p, hp, he⟩
    rw [decide_eq_true_iff] at he
    exact he ▸ List.mem_map_of_mem Prod.fst hp
  · intro hm
    rw [List.mem_map] at hm
    obtain ⟨p, hp, he⟩ := hm
    exact ⟨p, hp, by rw [decide_eq_true_iff]; exact he⟩

theorem setCellValue_present (s : Sheet) (a : ℕ × ℕ) (v : Option CellValue)
    (h : a ∈ s.cells.map Prod.fst) :
    s.setCellValue a v = { name := s.name, cells := s.cells.map (fun p =>
        if p.1 = a then (p.1, { p.2 with value := v }) else p) } := by
  unfold Sheet.setCellValue
  rw [if_pos ((sheet_keys_mem_iff s a).2 h)]

theorem setCellValue_keys_nodup (s : Sheet) (a : ℕ × ℕ) (v : Option CellValue)
    (hnd : (s.cells.map Prod.fst).Nodup) :
    ((s.setCellValue a v).cells.map Prod.fst).Nodup := by
  by_cases hm : a ∈ s.cells.map Prod.fst
  · rw [setCellValue_present s a v hm]
    show ((s.cells.map (fun p =>
        if p.1 = a then (p.1, { p.2 with value := v }) else p)).map Prod.fst).Nodup
    have hkeys : (s.cells.map (fun p =>
        if p.1 = a then (p.1, { p.2 with value := v }) else p)).map Prod.fst
        = s.cells.map Prod.fst := by
      rw [List.map_map]
      apply List.map_congr_left
      intro p _
      by_cases hp : p.1 = a
      · simp [hp]
      · simp [hp]
    rw [hkeys]
    exact hnd
  · rw [setCellValue_absent s a v hm]
    show ((s.cells ++ [(a, ({ value := v, style := none } : Cell))]).map Prod.fst).Nodup
    rw [List.map_append, List.nodup_append]
    refine ⟨hnd, by simp, ?_⟩
    intro x hx hxa
    simp at hxa
    subst hxa
    exact hm hx

theorem setCellValue_mem_preserved (s : Sheet) (a w : ℕ × ℕ) (v : Option CellValue)
    (c : Cell) (hc : (a, c) ∈ s.cells) (hne : a ≠ w) :
    (a, c) ∈ (s.setCellValue w v).cells := by
  by_cases hw : w ∈ s.cells.map Prod.fst
  · rw [setCellValue_present s w v hw]
    show (a, c) ∈ s.cells.map (fun p =>
        if p.1 = w then (p.1, { p.2 with value := v }) else p)
    have hmem := List.mem_map_of_mem (fun p =>
        if p.1 = w then (p.1, { p.2 with value := v }) else p) hc
    simpa [hne] using hmem
  · rw [setCellValue_absent s w v hw]
    show (a, c) ∈ s.cells ++ [(w, ({ value := v, style := none } : Cell))]
    exact List.mem_append_left _ hc

theorem updateFirstSheet_nodup (wb : Workbook) (f : Sheet → Sheet)
    (hf : ∀ s, (s.cells.map Prod.fst).Nodup → ((f s).cells.map Prod.fst).Nodup)
    (h : WBNodupKeys wb) : WBNodupKeys (wb.updateFirstSheet f) := by
  intro s hs
  unfold Workbook.updateFirstSheet at hs
  cases hwb : wb.sheets with
  | nil =>
    rw [hwb] at hs
    simp at hs
  | cons s0 rest =>
    rw [hwb] at hs
    simp only [List.mem_cons] at hs
    rcases hs with h1 | h2
    · subst h1
      exact hf s0 (h s0 (by rw [hwb]; exact List.mem_cons_self _ _))
    · exact h s (by rw [hwb]; exact List.mem_cons_of_mem _ h2)

theorem updateProfitCalc_nodup (wb : Workbook) (t : ℕ) (sp ff sc landed : ℚ)
    (h : WBNodupKeys wb) : WBNodupKeys (updateProfitCalc wb t sp ff sc landed) := by
  unfold updateProfitCalc
  apply updateFirstSheet_nodup
  · intro s hn
    apply setCellValue_keys_nodup
    apply setCellValue_keys_nodup
    apply setCellValue_keys_nodup
    apply setCellValue_keys_nodup
    apply setCellValue_keys_nodup
    exact hn
  · exact h

theorem loadWB_length (m : Bool) (fw : FileWorkbook) :
    (loadWB m fw).sheets.length = fw.sheets.length := by
  simp [loadWB]

theorem updateFirstSheet_length (wb : Workbook) (f : Sheet → Sheet) :
    (wb.updateFirstSheet f).sheets.length = wb.sheets.length := by
  unfold Workbook.updateFirstSheet
  cases wb.sheets <;> simp

theorem profit_writes_mem_preserved (s : Sheet) (addr : ℕ × ℕ) (c : Cell)
    (hc : (addr, c) ∈ s.cells)
    (h33 : addr ≠ addrF33) (h35 : addr ≠ addrF35) (h37 : addr ≠ addrF37)
    (h43 : addr ≠ addrF43) (h39 : addr ≠ addrF39) (t : ℕ) (sp ff sc landed : ℚ) :
    (addr, c) ∈ (((((s.setCellValue addrF33
        (some (CellValue.plain (PlainValue.num (t : ℚ))))).setCellValue
        addrF35 (some (CellValue.plain (PlainValue.num sp)))).setCellValue
        addrF37 (some (CellValue.plain (PlainValue.num ff)))).setCellValue
        addrF43 (some (CellValue.plain (PlainValue.num sc)))).setCellValue
        addrF39 (some (CellValue.plain (PlainValue.num landed)))).cells := by
  apply setCellValue_mem_preserved _ _ _ _ _ ?_ h39
  apply setCellValue_mem_preserved _ _ _ _ _ ?_ h43
  apply setCellValue_mem_preserved _ _ _ _ _ ?_ h37
  apply setCellValue_mem_preserved _ _ _ _ _ ?_ h35
  exact setCellValue_mem_preserved _ _ _ _ _ hc h33

/-- C10: the merge output is asymmetric with respect to formulas.  Its
first block of sheets comes from the computed-mode reload of the
landed-cost file, so those sheets never show formula text (a formula cell
shows the cached value of its last evaluation, or nothing); its second
block comes from the profit-calculator workbook, loaded once in formula
mode and never reloaded, so every formula cell of that document — outside
the five cells the run overwrites on the active sheet — appears in the
output as its formula text. -/
theorem merge_formula_asymmetry (FA FB : FileWorkbook) (landed sp ff sc : ℚ) (tgt : ℕ)
    (ha : FWNodupKeys FA) (hb : FWNodupKeys FB) :
    (∀ i, i < FA.sheets.length → ∀ addr c,
        (addr, c) ∈ ((mergeRun (loadWB true FA)
            (updateProfitCalc (loadWB false FB) tgt sp ff sc landed)).out.sheets.getD i
              defaultSheet).cells →
        ∀ f, c.value ≠ some (CellValue.formulaText f)) ∧
    (∀ i, i < FB.sheets.length → ∀ addr fsrc cached sty,
        (addr, ({ content := FileContent.formula fsrc cached, style := sty } : FileCell))
            ∈ (FB.sheets.getD i defaultFileSheet).cells →
        (i = 0 → addr ≠ addrF33 ∧ addr ≠ addrF35 ∧ addr ≠ addrF37 ∧
            addr ≠ addrF43 ∧ addr ≠ addrF39) →
        ∃ c2, (addr, c2) ∈ ((mergeRun (loadWB true FA)
            (updateProfitCalc (loadWB false FB) tgt sp ff sc landed)).out.sheets.getD
              (FA.sheets.length + i) defaultSheet).cells ∧
          c2.value = some (CellValue.formulaText fsrc)) := by
  have hA : WBNodupKeys (loadWB true FA) := loadWB_nodup true FA ha
  have hB : WBNodupKeys (updateProfitCalc (loadWB false FB) tgt sp ff sc landed) :=
    updateProfitCalc_nodup _ _ _ _ _ _ (loadWB_nodup false FB hb)
  have hout := mergeRun_out_eq _ _ hA hB
  have hlenA : (loadWB true FA).sheets.length = FA.sheets.length := loadWB_length true FA
  constructor
  · intro i hi addr c hmem f
    rw [hout, List.getD_append _ _ _ _ (by rw [hlenA]; exact hi)] at hmem
    have hsheet : (loadWB true FA).sheets.getD i defaultSheet
        = loadSheet true (FA.sheets.getD i defaultFileSheet) := by
      show (FA.sheets.map (loadSheet true)).getD i defaultSheet = _
      exact getD_map (loadSheet true) FA.sheets i defaultFileSheet defaultSheet hi
    rw [hsheet] at hmem
    obtain ⟨fc, _, hcfc⟩ := loadSheet_mem_inv true _ addr c hmem
    rw [hcfc]
    exact loadCell_computed_not_formula fc f
  · intro i hi addr fsrc cached sty hmem hnw
    rw [hout, List.getD_append_right _ _ _ _ (by rw [hlenA]; omega)]
    have hidx : FA.sheets.length + i - (loadWB true FA).sheets.length = i := by
      rw [hlenA]
      omega
    rw [hidx]
    cases hFB : FB.sheets with
    | nil =>
      rw [hFB] at hi
      simp at hi
    | cons fs0 rest =>
      have hwbB : (updateProfitCalc (loadWB false FB) tgt sp ff sc landed).sheets
          = (((((loadSheet false fs0).setCellValue addrF33
              (some (CellValue.plain (PlainValue.num (tgt : ℚ))))).setCellValue
              addrF35 (some (CellValue.plain (PlainValue.num sp)))).setCellValue
              addrF37 (some (CellValue.plain (PlainValue.num ff)))).setCellValue
              addrF43 (some (CellValue.plain (PlainValue.num sc)))).setCellValue
              addrF39 (some (CellValue.plain (PlainValue.num landed)))
            :: rest.map (loadSheet false) := by
        unfold updateProfitCalc Workbook.updateFirstSheet loadWB
        rw [hFB, List.map_cons]
      cases i with
      | zero =>
        rw [hwbB, List.getD_cons_zero]
        rw [hFB, List.getD_cons_zero] at hmem
        have h1 : (addr, loadCell false
            ({ content := FileContent.formula fsrc cached, style := sty } : FileCell))
            ∈ (loadSheet false fs0).cells := by
          unfold loadSheet
          exact List.mem_map_of_mem _ hmem
        obtain ⟨h33, h35, h37, h43, h39⟩ := hnw rfl
        exact ⟨loadCell false
            ({ content := FileContent.formula fsrc cached, style := sty } : FileCell),
          profit_writes_mem_preserved _ addr _ h1 h33 h35 h37 h43 h39
            tgt sp ff sc landed, rfl⟩
      | succ n =>
        rw [hwbB, List.getD_cons_succ]
        rw [hFB, List.getD_cons_succ] at hmem
        have hn : n < rest.length := by
          rw [hFB] at hi
          simpa using hi
        rw [getD_map (loadSheet false) rest n defaultFileSheet defaultSheet hn]
        refine ⟨loadCell false
            ({ content := FileContent.formula fsrc cached, style := sty } : FileCell), ?_, rfl⟩
        show (addr, loadCell false
            ({ content := FileContent.formula fsrc cached, style := sty } : FileCell))
            ∈ (loadSheet false (rest.getD n defaultFileSheet)).cells
        unfold loadSheet
        exact List.mem_map_of_mem _ hmem

theorem merge_formula_asymmetry_witness :
    ∃ c2, ((1, 1), c2) ∈ ((mergeRun (loadWB true fwA)
        (updateProfitCalc (loadWB false fwB) 2 29 3 1 15)).out.sheets.getD
          (fwA.sheets.length + 0) defaultSheet).cells ∧
      c2.value = some (CellValue.formulaText fProfitSrc) :=
  (merge_formula_asymmetry fwA fwB 15 29 3 1 2
      (by unfold FWNodupKeys; decide) (by unfold FWNodupKeys; decide)).2
    0 (by decide) (1, 1) fProfitSrc none none (by decide) (by decide)
